import Mathlib

/-!
Verification of the Webmagic repository's CSS cachebreaking / content-cache
logic, its `url(...)` rewriter, its resource-tree path normalization, and its
safe header setters, as shallow Lean embeddings of the Python source
(`webmagic/cssfixer.py`, `webmagic/pathmanip.py`, `webmagic/untwist.py`,
`webmagic/safe_headers.py`).

Machine strings are embedded as Lean `String` (Python 2 `str` of the inputs
involved is byte/char-indexed text; the operations used -- scanning,
concatenation, find/replace of substrings -- are embedded on `List Char`).
Exceptions become explicit error values.  External collaborators that are not
part of the repository source (the `filecache.FileCache` content provider, the
`transforms.md5hexdigest` hash, and the standard library's `urljoin`) are
modelled from the specification's description of their interfaces.
-/

namespace Webmagic

/-- Bool test that `pre` is a prefix of `s`, on the character lists.
Embeds Python `s.startswith(pre)`. -/
def strStartsWith (pre s : String) : Bool :=
  pre.data.isPrefixOf s.data

/-- Concatenate a list of character lists. -/
def concatLists : List (List Char) → List Char
  | [] => []
  | l :: ls => l ++ concatLists ls

/-- Find the first close paren in `cs` that is not preceded by a newline;
return the characters before it and the remainder after it.  This is the
lazy `.*?\)` part of the regex in `_getUrlsHack` (`.` does not match a
newline in Python `re`). -/
def findCloseParen : List Char → Option (List Char × List Char)
  | [] => none
  | c :: rest =>
    if c = ')' then some ([], rest)
    else if c = '\n' then none
    else
      match findCloseParen rest with
      | some (inner, r) => some (c :: inner, r)
      | none => none

/-- Fuel-driven scan for the regex `url\(.*?\)` (non-overlapping, left to
right), yielding the text between `url(` and the first following `)` for
each match, exactly as `re.findall` does for `_getUrlsHack` in
`cssfixer.py`.  Each step consumes at least one character, so fuel equal to
the length of the input suffices. -/
def getUrlsHackAux : Nat → List Char → List String
  | 0, _ => []
  | _, [] => []
  | Nat.succ fuel, c :: rest =>
    if "url(".data.isPrefixOf (c :: rest) then
      match findCloseParen ((c :: rest).drop 4) with
      | some (inner, r) => String.mk inner :: getUrlsHackAux fuel r
      | none => getUrlsHackAux fuel rest
    else getUrlsHackAux fuel rest

/-- Embedding of `cssfixer._getUrlsHack`: the hrefs of the `url(...)`
occurrences of a CSS text, in order. -/
def getUrlsHack (s : String) : List String :=
  getUrlsHackAux s.data.length s.data

/-- Replace the first occurrence of (non-empty) `pat` in a character list.
Embeds Python `s.replace(pat, repl, 1)`. -/
def replaceFirstAux (pat repl : List Char) : List Char → List Char
  | [] => []
  | c :: rest =>
    if pat.isPrefixOf (c :: rest) then repl ++ (c :: rest).drop pat.length
    else c :: replaceFirstAux pat repl rest

/-- `replaceFirstStr pat repl s` is Python `s.replace(pat, repl, 1)` for a
non-empty `pat`. -/
def replaceFirstStr (pat repl s : String) : String :=
  String.mk (replaceFirstAux pat.data repl.data s.data)

/-- Whether `pat` occurs in the character list `cs` (Python `pat in cs`). -/
def containsSubstrAux (pat : List Char) : List Char → Bool
  | [] => pat.isPrefixOf []
  | c :: rest => pat.isPrefixOf (c :: rest) || containsSubstrAux pat rest

/-- Whether `pat` occurs in `s` (Python `pat in s`). -/
def containsSubstr (s pat : String) : Bool :=
  containsSubstrAux pat.data s.data

/-- Lower hex digit for a value below 16. -/
def hexDigitChar (n : Nat) : Char :=
  if n < 10 then Char.ofNat (48 + n) else Char.ofNat (87 + n)

/-- Escape a single character the way the Python 2 `repr` of a `str` does,
given the chosen quote character `qc`. -/
def pyEscapeChar (qc : Char) (c : Char) : List Char :=
  if c = '\\' then ['\\', '\\']
  else if c = qc then ['\\', qc]
  else if c = '\n' then ['\\', 'n']
  else if c = '\r' then ['\\', 'r']
  else if c = '\t' then ['\\', 't']
  else if c.toNat < 32 || c.toNat ≥ 127 then
    ['\\', 'x', hexDigitChar (c.toNat / 16 % 16), hexDigitChar (c.toNat % 16)]
  else [c]

/-- Python 2 `repr` of a `str`: single quotes by default, double quotes when
the string holds a single quote but no double quote. -/
def pyReprStr (s : String) : String :=
  let hasSingle := s.data.any (fun c => c = '\x27')
  let hasDouble := s.data.any (fun c => c = '"')
  let qc := if hasSingle && !hasDouble then '"' else '\x27'
  String.mk (qc :: concatLists (s.data.map (pyEscapeChar qc)) ++ [qc])

/-- Python 2 `repr` of a list of `str`. -/
def pyReprStrList (xs : List String) : String :=
  "[" ++ String.intercalate ", " (xs.map pyReprStr) ++ "]"

/-- Hex digit value of a character, if it is one. -/
def hexVal : Char → Option Nat
  | c =>
    if '0' ≤ c ∧ c ≤ '9' then some (c.toNat - 48)
    else if 'a' ≤ c ∧ c ≤ 'f' then some (c.toNat - 87)
    else if 'A' ≤ c ∧ c ≤ 'F' then some (c.toNat - 55)
    else none

/-- Modelled from the spec: percent-decoding of a URL-encoded path
(`urllib.unquote`, standard library, not under `src/`): each `%` followed
by hex digits decodes to the corresponding character; a `%` not followed by
valid hex is kept literally. -/
def unquoteAux : List Char → List Char
  | [] => []
  | '%' :: a :: b :: rest =>
    match hexVal a, hexVal b with
    | some x, some y => Char.ofNat (16 * x + y) :: unquoteAux rest
    | _, _ => '%' :: unquoteAux (a :: b :: rest)
  | '%' :: a :: [] =>
    match hexVal a with
    | some x => [Char.ofNat x]
    | none => ['%', a]
  | c :: rest => c :: unquoteAux rest

/-- `unquote` on strings. -/
def unquote (s : String) : String :=
  String.mk (unquoteAux s.data)

/-- Split a character list on `/`, Python `s.split('/')` (always at least
one piece; empty pieces kept). -/
def splitSlash : List Char → List (List Char)
  | [] => [[]]
  | c :: rest =>
    if c = '/' then [] :: splitSlash rest
    else
      match splitSlash rest with
      | [] => [[c]]
      | s :: ss => (c :: s) :: ss

/-- Join segments with `/`. -/
def joinSlash : List (List Char) → List Char
  | [] => []
  | [s] => s
  | s :: ss => s ++ '/' :: joinSlash ss

/-- Stack phase of RFC 3986 section 5.2.4 remove_dot_segments, working on
the segments after the leading `/`:  `.` is dropped, `..` pops one segment
(never popping past the root), and a trailing `.` or `..` leaves a trailing
empty segment (a trailing slash). -/
def rdsLoop : List (List Char) → List (List Char) → List (List Char)
  | acc, [] => acc.reverse
  | acc, seg :: rest =>
    if seg = ['.'] then
      if rest = [] then ([] :: acc).reverse else rdsLoop acc rest
    else if seg = ['.', '.'] then
      if rest = [] then ([] :: acc.drop 1).reverse else rdsLoop (acc.drop 1) rest
    else rdsLoop (seg :: acc) rest

/-- Modelled from the spec: RFC 3986 remove_dot_segments for a path. -/
def removeDotSegments (p : String) : String :=
  match splitSlash p.data with
  | [] => p
  | root :: rest => String.mk (joinSlash (root :: rdsLoop [] rest))

/-- The base path up to and including its last `/` (RFC 3986 5.3 merge). -/
def dropAfterLastSlash (cs : List Char) : List Char :=
  (cs.reverse.dropWhile (fun c => c ≠ '/')).reverse

/-- Modelled from the spec: `urlparse.urljoin` (standard library, not under
`src/`) as used by `pathmanip.getResourceForHref`, per the spec's wording
"standard RFC 3986 relative-reference resolution", restricted to the
path-only references that occur as CSS hrefs (no scheme, authority, query
or fragment): an absolute-path reference replaces the base path, and a
relative reference is merged against the base path's directory; dot
segments are removed. -/
def urljoin (base href : String) : String :=
  if href = "" then base
  else if strStartsWith "/" href then removeDotSegments href
  else removeDotSegments (String.mk (dropAfterLastSlash base.data ++ href.data))

/-- A referenced file and its last-known hash
(`cssfixer.ReferencedFile`). -/
structure ReferencedFile where
  path : String
  lasthash : String
deriving DecidableEq

/-- The resource tree served by the site.  `better` nodes are
`untwist.BetterResource` instances with explicitly registered children
(`putChild`); `plain` nodes are non-Better `twisted.web.resource.Resource`s
(for example `static.File` leaves; `tag` records the served file's absolute
disk path, the `.path` attribute); `breakerFile` is a resource providing
`ICacheBreaker.getCacheBreaker` (such as `untwist.CSSResource`);
`redirecting` is `untwist.RedirectingResource`; `helpfulNoResource` is the
404 page `untwist.HelpfulNoResource` (an `ErrorPage`); `noResource` is
twisted's own `NoResource` (also an `ErrorPage`). -/
inductive Res where
  | better (isLeaf : Bool) (children : List (String × Res))
  | plain (isLeaf : Bool) (children : List (String × Res)) (tag : String)
  | breakerFile (tag : String) (breaker : String)
  | redirecting (code : Nat) (location : String)
  | helpfulNoResource
  | noResource

/-- Dictionary lookup in a children association list
(`self.children[path]`). -/
def lookupChild : List (String × Res) → String → Option Res
  | [], _ => none
  | (k, r) :: rest, p => if k = p then some r else lookupChild rest p

/-- The `isLeaf` attribute.  `RedirectingResource` and the `ErrorPage`s
keep twisted's default `isLeaf = False`; `CSSResource` sets
`isLeaf = True`. -/
def Res.isLeafB : Res → Bool
  | .better l _ => l
  | .plain l _ _ => l
  | .breakerFile _ _ => true
  | .redirecting _ _ => false
  | .helpfulNoResource => false
  | .noResource => false

/-- `isinstance(r, BetterResource)`: `CSSResource` subclasses
`BetterResource`; `RedirectingResource`, `HelpfulNoResource` and plain
resources do not. -/
def Res.isBetter : Res → Bool
  | .better _ _ => true
  | .breakerFile _ _ => true
  | _ => false

/-- The children dict of a resource. -/
def Res.childrenOf : Res → List (String × Res)
  | .better _ cs => cs
  | .plain _ cs _ => cs
  | _ => []

/-- `'' in r.children`. -/
def Res.hasEmptyChild (r : Res) : Bool :=
  (lookupChild r.childrenOf "").isSome

/-- The `.path` attribute of a static-file-like resource (its absolute disk
path). -/
def Res.pathOf : Res → String
  | .plain _ _ tag => tag
  | .breakerFile tag _ => tag
  | _ => ""

/-- The relevant fields of a `server.Request` during resource dispatch. -/
structure Request where
  prepath : List String
  postpath : List String
  uri : String

/-- Embedding of `untwist.BetterResource.getChildWithDefault`
(untwist.py lines 288-336): 404 for unknown children (via the default
`BetterResource.getChild`), 404 for requests with extra postpath crud past
a leaf, a 301 redirect adding a trailing slash when the matched Better
child would be rendered without one (unless the target has neither an
index child nor is a leaf), and otherwise the child itself. -/
def betterGetChildWithDefault (children : List (String × Res)) (path : String)
    (req : Request) : Res :=
  match lookupChild children path with
  | none => Res.helpfulNoResource
  | some child =>
    if child.isLeafB && !(req.postpath == ([] : List String) || req.postpath == [""]) then
      Res.helpfulNoResource
    else if (req.postpath == ([] : List String)) && (req.prepath.getLast? != some "")
        && child.isBetter then
      if !(child.hasEmptyChild || child.isLeafB) then Res.helpfulNoResource
      else Res.redirecting 301 (req.uri ++ "/")
    else child

/-- `getChildWithDefault` dispatch over the resource kinds: Better
resources use the overridden method above; plain resources use twisted's
default (registered children, else a 404 `NoResource`); an `ErrorPage`
returns itself from `getChild`. -/
def getChildWithDefault (res : Res) (path : String) (req : Request) : Res :=
  match res with
  | .better _ cs => betterGetChildWithDefault cs path req
  | .plain _ cs _ =>
    match lookupChild cs path with
    | some c => c
    | none => Res.noResource
  | .breakerFile _ _ => Res.helpfulNoResource
  | .redirecting _ _ => Res.noResource
  | .helpfulNoResource => Res.helpfulNoResource
  | .noResource => Res.noResource

/-- twisted's `getChildForRequest` loop: while there is postpath and the
resource is not a leaf, pop the next segment onto prepath and descend via
`getChildWithDefault`. -/
def getChildForRequestAux (res : Res) (prepath : List String)
    (postpath : List String) (uri : String) : Res :=
  match postpath with
  | [] => res
  | seg :: rest =>
    if res.isLeafB then res
    else
      getChildForRequestAux
        (getChildWithDefault res seg ⟨prepath ++ [seg], rest, uri⟩)
        (prepath ++ [seg]) rest uri

/-- `twisted.web.resource.getChildForRequest`. -/
def getChildForRequest (res : Res) (req : Request) : Res :=
  getChildForRequestAux res req.prepath req.postpath req.uri

/-- Embedding of `pathmanip.getResourceForPath`: build a request whose
postpath is the unquoted path split on `/` with the leading piece popped,
and resolve it against the site's root resource. -/
def getResourceForPath (root : Res) (path : String) : Res :=
  getChildForRequestAux root []
    (((splitSlash (unquote path).data).map String.mk).drop 1) path

/-- Embedding of `pathmanip.getResourceForHref`: join the href against the
requesting resource's path and resolve the joined path in the site
tree. -/
def getResourceForHref (root : Res) (requestPath href : String) : Res :=
  getResourceForPath root (urljoin requestPath href)

/-- The external collaborators of the CSS cache, as functions.
`md5` is modelled from the spec: `transforms.md5hexdigest` (not under
`src/`), an arbitrary content-hash function.  `fcRaw` and `fcIsNew` are
modelled from the spec's file content provider interface
(`filecache.FileCache`, not under `src/`): `getContent(path)` returns
`(fcRaw path, fcIsNew path)` and `getContent(path, transform)` returns
`(transform (fcRaw path), fcIsNew path)`. -/
structure Env where
  md5 : String → String
  fcRaw : String → String
  fcIsNew : String → Bool

/-- Embedding of `pathmanip.getBreakerForResource`: `None` for an
`ErrorPage` (`HelpfulNoResource` and `NoResource` are `ErrorPage`
subclasses); the resource's own `getCacheBreaker()` when it provides one;
otherwise the resource is assumed to be a `static.File` and the breaker is
the md5 hexdigest of its file contents via the file cache.  (A non-File
resource without `getCacheBreaker` would raise `AttributeError` in Python;
such resources are outside this model and are never produced by the
environments used below.) -/
def getBreakerForResource (env : Env) (r : Res) : Option String :=
  match r with
  | .helpfulNoResource => none
  | .noResource => none
  | .breakerFile _ b => some b
  | r => some (env.md5 (env.fcRaw r.pathOf))

/-- Embedding of `pathmanip.makeLinkWithBreaker`: append `?cb=` and the
breaker, substituting the placeholder `not-found` for a missing one. -/
def makeLinkWithBreaker (href : String) (breakerOrNone : Option String) : String :=
  href ++ "?cb=" ++ (match breakerOrNone with
    | none => "not-found"
    | some b => b)

/-- The warning banner `fixUrls` appends when some breakers are missing
(the `content +=` template in cssfixer.py lines 72-81), with the Python
`%r` formatting of the request path and the missing href list. -/
def warningBanner (requestPath : String) (missing : List String) : String :=
  "body:before \x7b\n\tcontent: \"Warning: webmagic.cssfixer could not add cachebreakers in "
    ++ pyReprStr requestPath ++ " for " ++ pyReprStrList missing
    ++ "\";\n\tposition: relative;\n\tz-index: 1000000;\n\tfont-size: 16px;\n\tcolor: darkred;\n\tbackground-color: white;\n\x7d\n"

/-- One iteration of the `for href in urls` loop of `cssfixer.fixUrls`,
acting on the loop state (current content, `references`,
`missingBreakers`).  Absolute `http://`/`https://` hrefs are skipped.
Otherwise the href is resolved against the requesting path, its breaker is
fetched, `references` or `missingBreakers` is extended, the first
occurrence of the `url(...)` text is replaced by the cachebroken link, and
(inside the loop, as in the source) the warning banner is appended whenever
`missingBreakers` is non-empty. -/
def fixUrlsStep (env : Env) (root : Res) (requestPath : String)
    (st : String × List ReferencedFile × List String) (href : String) :
    String × List ReferencedFile × List String :=
  if strStartsWith "http://" href || strStartsWith "https://" href then st
  else
    let staticResource := getResourceForHref root requestPath href
    let breaker := getBreakerForResource env staticResource
    let refs := match breaker with
      | some b => st.2.1 ++ [ReferencedFile.mk staticResource.pathOf b]
      | none => st.2.1
    let missing := match breaker with
      | some _ => st.2.2
      | none => st.2.2 ++ [href]
    let content1 := replaceFirstStr ("url(" ++ href ++ ")")
      ("url(" ++ makeLinkWithBreaker href breaker ++ ")") st.1
    let content2 := if missing.isEmpty then content1
      else content1 ++ warningBanner requestPath missing
    (content2, refs, missing)

/-- The `for href in urls` loop of `cssfixer.fixUrls`, folded over the
hrefs scanned from the original content (the generator iterates over the
original string even though the local `content` is rebound). -/
def fixUrlsFold (env : Env) (root : Res) (requestPath content : String) :
    String × List ReferencedFile × List String :=
  (getUrlsHack content).foldl (fixUrlsStep env root requestPath) (content, [], [])

/-- Embedding of `cssfixer.fixUrls`: scan the original content for
`url(...)` hrefs, run the rewrite loop, and return the processed CSS and
the collected `ReferencedFile` list. -/
def fixUrls (env : Env) (root : Res) (requestPath content : String) :
    String × List ReferencedFile :=
  ((fixUrlsFold env root requestPath content).1,
   (fixUrlsFold env root requestPath content).2.1)

/-- A CSS cache entry (`untwist._CSSCacheEntry`): the processed content,
a digest of it used as cachebreaker, and the referenced files. -/
structure CSSCacheEntry where
  processed : String
  digest : String
  references : List ReferencedFile
deriving DecidableEq

/-- The per-`BetterFile` CSS cache dict, keyed by absolute file path. -/
def CSSCache : Type := String → Option CSSCacheEntry

/-- Embedding of `untwist.CSSResource._process`: run `fixUrls` and prepend
the header comment with the md5 of the original content. -/
def process (env : Env) (root : Res) (requestPath content : String) :
    String × List ReferencedFile :=
  let r := fixUrls env root requestPath content
  ("/* CSSResource processed " ++ env.md5 content ++ " */\n" ++ r.1, r.2)

/-- Embedding of `untwist.CSSResource._haveUpdatedReferences`: `False` when
the cache has no entry for the path (the `except KeyError` branch);
otherwise whether any recorded reference's current hash (re-queried from
the file cache) differs from the recorded one. -/
def haveUpdatedReferences (env : Env) (cache : CSSCache) (path : String) : Bool :=
  match cache path with
  | none => false
  | some entry =>
    entry.references.any (fun ref => ref.lasthash != env.md5 (env.fcRaw ref.path))

/-- The file-cache queries (by referenced path) that the loop of
`_haveUpdatedReferences` performs: each reference is queried in order until
the first mismatch returns early. -/
def referenceQueries (env : Env) : List ReferencedFile → List String
  | [] => []
  | ref :: rest =>
    ref.path ::
      (if ref.lasthash != env.md5 (env.fcRaw ref.path) then []
       else referenceQueries env rest)

/-- The file-cache queries performed by `_haveUpdatedReferences`: none at
all when the cache holds no entry for the path. -/
def haveUpdatedReferencesQueries (env : Env) (cache : CSSCache) (path : String) :
    List String :=
  match cache path with
  | none => []
  | some entry => referenceQueries env entry.references

/-- The recompute branch of `untwist.CSSResource._getProcessedCSS`: run the
transform on the file's current content, build a `_CSSCacheEntry` whose
digest is the md5 of the processed content, store it in the cache, and
return the processed content.  The final `Nat` instruments how many times
the CSS transform (`_process`) ran. -/
def recomputeCSS (env : Env) (root : Res) (requestPath : String)
    (cache : CSSCache) (path : String) : String × CSSCache × Nat :=
  let pr := process env root requestPath (env.fcRaw path)
  let entry : CSSCacheEntry := ⟨pr.1, env.md5 pr.1, pr.2⟩
  (pr.1, fun q => if q = path then some entry else cache q, 1)

/-- Embedding of `untwist.CSSResource._getProcessedCSS` (the spec's
`getOrCompute`): read the source content and its possibly-new flag from the
file cache; if the flag is clear and no recorded reference is stale, return
the cached entry's processed content (recomputing on a `KeyError` miss);
otherwise recompute and replace the entry.  Returns the processed content,
the updated cache, and the number of transform invocations. -/
def getProcessedCSS (env : Env) (root : Res) (requestPath : String)
    (cache : CSSCache) (path : String) : String × CSSCache × Nat :=
  if !env.fcIsNew path && !haveUpdatedReferences env cache path then
    match cache path with
    | some entry => (entry.processed, cache, 0)
    | none => recomputeCSS env root requestPath cache path
  else recomputeCSS env root requestPath cache path

/-- The entry a (re)computation of `_getProcessedCSS` stores for `path`. -/
def computedEntry (env : Env) (root : Res) (requestPath path : String) :
    CSSCacheEntry :=
  let pr := process env root requestPath (env.fcRaw path)
  ⟨pr.1, env.md5 pr.1, pr.2⟩

/-- A Python value as it can reach `safe_headers.setRawHeadersSafely`:
a `str`, a `list` of values, or some other object (named by a tag). -/
inductive PyVal where
  | str (s : String)
  | list (items : List PyVal)
  | other (tag : String)

/-- The exceptions `safe_headers` raises. -/
inductive PyErr where
  | typeError
  | valueError
deriving DecidableEq

/-- Embedding of `safe_headers.isValidHeaderValue`: no LF and no CR
anywhere in the value. -/
def isValidHeaderValue (value : String) : Bool :=
  !(value.data.contains '\n' || value.data.contains '\r')

/-- Embedding of `safe_headers.checkHeaderValue`: `TypeError` for a
non-`str`, `ValueError` for an invalid header value, no exception
otherwise. -/
def checkHeaderValue : PyVal → Option PyErr
  | .str s => if isValidHeaderValue s then none else some PyErr.valueError
  | _ => some PyErr.typeError

/-- The `for value in values: checkHeaderValue(value)` loop: the first
exception raised, if any. -/
def firstCheckError : List PyVal → Option PyErr
  | [] => none
  | v :: rest =>
    match checkHeaderValue v with
    | some e => some e
    | none => firstCheckError rest

/-- A `twisted.web.http_headers.Headers` object, as an association list
from header name to raw values. -/
abbrev Headers : Type := List (String × List String)

/-- `headers.setRawHeaders(name, values)`: replace the values for `name`
(or append the pair). -/
def headersSet (hdrs : Headers) (name : String) (values : List String) : Headers :=
  match hdrs with
  | [] => [(name, values)]
  | (k, vs) :: rest =>
    if k = name then (name, values) :: rest
    else (k, vs) :: headersSet rest name values

/-- The `str` payloads of a list of Python values that are all `str`s. -/
def strValuesOf : List PyVal → List String
  | [] => []
  | .str s :: rest => s :: strValuesOf rest
  | _ :: rest => "" :: strValuesOf rest

/-- Embedding of `safe_headers.setRawHeadersSafely`: `TypeError` when
`values` is not a list; otherwise every value is checked in order and the
first exception is raised before any mutation (the headers come back
unchanged); when all checks pass, the header is set to exactly the given
values. -/
def setRawHeadersSafely (hdrs : Headers) (name : String) (values : PyVal) :
    Headers × Option PyErr :=
  match values with
  | .list items =>
    match firstCheckError items with
    | some e => (hdrs, some e)
    | none => (headersSet hdrs name (strValuesOf items), none)
  | _ => (hdrs, some PyErr.typeError)

/-- Whether a Python value is a `str`. -/
def isPyStr : PyVal → Bool
  | .str _ => true
  | _ => false

/-- The reference entry a single href contributes to the `references` list
of `fixUrls`, if any: nothing for an absolute href, nothing for an href
whose breaker cannot be computed, and otherwise the resolved resource's
path paired with its breaker. -/
def refOf (env : Env) (root : Res) (requestPath : String) (href : String) :
    Option ReferencedFile :=
  if strStartsWith "http://" href || strStartsWith "https://" href then none
  else
    match getBreakerForResource env (getResourceForHref root requestPath href) with
    | some b => some ⟨(getResourceForHref root requestPath href).pathOf, b⟩
    | none => none

/- Concrete environments used to instantiate the theorems below. -/

/-- A degenerate environment: the identity as content hash, empty file
contents, nothing reported new. -/
def env0 : Env := ⟨fun s => s, fun _ => "", fun _ => false⟩

/-- An environment with distinguishable hashes and contents. -/
def envW : Env := ⟨fun s => "h:" ++ s, fun p => "c:" ++ p, fun _ => false⟩

/-- A site whose root has no children: every path resolves to the 404
resource, so every breaker is missing. -/
def root0 : Res := Res.better false []

/-- The empty CSS cache. -/
def cache0 : CSSCache := fun _ => none

/-- A cache entry whose single recorded reference still hashes (under
`envW`) to its recorded hash. -/
def entryFresh : CSSCacheEntry :=
  ⟨"P", "D", [⟨"/d/r.png", "h:c:/d/r.png"⟩]⟩

/-- A cache holding `entryFresh` for `/d/s.css`. -/
def cacheFresh : CSSCache :=
  fun q => if q = "/d/s.css" then some entryFresh else none

/-- A cache entry whose single recorded reference no longer hashes (under
`envW`) to its recorded hash. -/
def entryStale : CSSCacheEntry :=
  ⟨"P", "D", [⟨"/d/r.png", "stale"⟩]⟩

/-- A cache holding `entryStale` for `/d/s.css`. -/
def cacheStale : CSSCache :=
  fun q => if q = "/d/s.css" then some entryStale else none

/- Helper lemmas. -/

/-- A list is a `isPrefixOf` of itself. -/
theorem isPrefixOf_self (l : List Char) : l.isPrefixOf l = true := by
  induction l with
  | nil => rfl
  | cons c cs ih => simp [List.isPrefixOf, ih]

/-- A pattern occurs in any string obtained by appending it. -/
theorem containsSubstrAux_append (pat : List Char) :
    ∀ s : List Char, containsSubstrAux pat (s ++ pat) = true := by
  intro s
  induction s with
  | nil =>
    cases pat with
    | nil => rfl
    | cons c cs => simp [containsSubstrAux, isPrefixOf_self]
  | cons c s ih => simp [containsSubstrAux, ih]

/-- `containsSubstr` finds a pattern appended at the end. -/
theorem containsSubstr_append (s pat : String) :
    containsSubstr (s ++ pat) pat = true := by
  unfold containsSubstr
  rw [show (s ++ pat).data = s.data ++ pat.data from rfl]
  exact containsSubstrAux_append pat.data s.data

/-- The rewrite loop of `fixUrls` leaves its state untouched when every
href is absolute. -/
theorem foldl_fixUrlsStep_absolute (env : Env) (root : Res) (rp : String) :
    ∀ (hrefs : List String) (st : String × List ReferencedFile × List String),
      (∀ u ∈ hrefs, (strStartsWith "http://" u || strStartsWith "https://" u) = true) →
      hrefs.foldl (fixUrlsStep env root rp) st = st := by
  intro hrefs
  induction hrefs with
  | nil => intro st _; rfl
  | cons u rest ih =>
    intro st h
    rw [List.foldl_cons]
    have hu := h u (List.mem_cons_self u rest)
    rw [show fixUrlsStep env root rp st u = st from by simp [fixUrlsStep, hu]]
    exact ih st (fun v hv => h v (List.mem_cons_of_mem u hv))

/-- The rewrite loop of `fixUrls` accumulates exactly the reference
entries described by `refOf`, in order, onto whatever the state already
holds. -/
theorem foldl_fixUrlsStep_refs (env : Env) (root : Res) (rp : String) :
    ∀ (hrefs : List String) (st : String × List ReferencedFile × List String),
      (hrefs.foldl (fixUrlsStep env root rp) st).2.1
        = st.2.1 ++ hrefs.filterMap (refOf env root rp) := by
  intro hrefs
  induction hrefs with
  | nil => intro st; simp
  | cons u rest ih =>
    intro st
    rw [List.foldl_cons, ih, List.filterMap_cons]
    by_cases habs : (strStartsWith "http://" u || strStartsWith "https://" u) = true
    · simp [fixUrlsStep, refOf, habs]
    · cases hb : getBreakerForResource env (getResourceForHref root rp u) with
      | none => simp [fixUrlsStep, refOf, habs, hb]
      | some b => simp [fixUrlsStep, refOf, habs, hb]

/-- `firstCheckError` raises the first failing item's exception when all
earlier items pass. -/
theorem firstCheckError_append (pre : List PyVal) (bad : PyVal) (rest : List PyVal)
    (e : PyErr) (hpre : ∀ v ∈ pre, checkHeaderValue v = none)
    (hbad : checkHeaderValue bad = some e) :
    firstCheckError (pre ++ bad :: rest) = some e := by
  induction pre with
  | nil => simp [firstCheckError, hbad]
  | cons v vs ih =>
    have hv := hpre v (List.mem_cons_self v vs)
    simp only [List.cons_append, firstCheckError, hv]
    exact ih (fun w hw => hpre w (List.mem_cons_of_mem v hw))

/- Claim theorems. -/

/-- C1: for a path with no prior CSS-cache entry, `_getProcessedCSS`
invokes the CSS transform exactly once and stores an entry whose digest is
the content hash (md5 hexdigest) of the stored processed content. -/
theorem getProcessedCSS_miss (env : Env) (root : Res) (requestPath : String)
    (cache : CSSCache) (path : String) (h : cache path = none) :
    (getProcessedCSS env root requestPath cache path).2.2 = 1 ∧
    (getProcessedCSS env root requestPath cache path).2.1 path
      = some (computedEntry env root requestPath path) ∧
    (computedEntry env root requestPath path).digest
      = env.md5 ((computedEntry env root requestPath path).processed) := by
  have hupd : haveUpdatedReferences env cache path = false := by
    unfold haveUpdatedReferences
    rw [h]
  cases hn : env.fcIsNew path with
  | false =>
    simp [getProcessedCSS, hn, hupd, h, recomputeCSS, computedEntry]
  | true =>
    simp [getProcessedCSS, hn, recomputeCSS, computedEntry]

/-- C1 witness. -/
theorem getProcessedCSS_miss_witness :
    (getProcessedCSS envW root0 "/s.css" cache0 "/d/s.css").2.2 = 1 ∧
    (getProcessedCSS envW root0 "/s.css" cache0 "/d/s.css").2.1 "/d/s.css"
      = some (computedEntry envW root0 "/s.css" "/d/s.css") ∧
    (computedEntry envW root0 "/s.css" "/d/s.css").digest
      = envW.md5 ((computedEntry envW root0 "/s.css" "/d/s.css").processed) :=
  getProcessedCSS_miss envW root0 "/s.css" cache0 "/d/s.css" rfl

/-- C2: for a path with a cache entry, a source not reported new, and all
recorded references still hashing to their recorded hashes,
`_getProcessedCSS` returns the cached processed content without invoking
the transform and leaves the cache unchanged; hence the repeated call
returns byte-identical content, also without recomputing. -/
theorem getProcessedCSS_unchanged_idempotent (env : Env) (root : Res)
    (requestPath : String) (cache : CSSCache) (path : String) (e : CSSCacheEntry)
    (h1 : cache path = some e) (h2 : env.fcIsNew path = false)
    (h3 : ∀ ref ∈ e.references, env.md5 (env.fcRaw ref.path) = ref.lasthash) :
    getProcessedCSS env root requestPath cache path = (e.processed, cache, 0) ∧
    getProcessedCSS env root requestPath
        ((getProcessedCSS env root requestPath cache path).2.1) path
      = (e.processed, cache, 0) := by
  have hupd : haveUpdatedReferences env cache path = false := by
    unfold haveUpdatedReferences
    rw [h1]
    rw [List.any_eq_false]
    intro ref href
    simp [bne_iff_ne, h3 ref href]
  have hmain : getProcessedCSS env root requestPath cache path = (e.processed, cache, 0) := by
    simp [getProcessedCSS, h1, h2, hupd]
  refine ⟨hmain, ?_⟩
  rw [hmain]
  exact hmain

/-- C2 witness. -/
theorem getProcessedCSS_unchanged_idempotent_witness :
    getProcessedCSS envW root0 "/s.css" cacheFresh "/d/s.css"
      = (entryFresh.processed, cacheFresh, 0) ∧
    getProcessedCSS envW root0 "/s.css"
        ((getProcessedCSS envW root0 "/s.css" cacheFresh "/d/s.css").2.1) "/d/s.css"
      = (entryFresh.processed, cacheFresh, 0) :=
  getProcessedCSS_unchanged_idempotent envW root0 "/s.css" cacheFresh "/d/s.css"
    entryFresh (by decide) rfl (by decide)

/-- C3: if some recorded reference of the cached entry no longer hashes to
its recorded hash, `_getProcessedCSS` recomputes — it invokes the transform
(count 1) and replaces the cache entry — even though the CSS file itself is
not reported new by the file cache. -/
theorem getProcessedCSS_stale_reference_recomputes (env : Env) (root : Res)
    (requestPath : String) (cache : CSSCache) (path : String) (e : CSSCacheEntry)
    (ref : ReferencedFile) (h1 : cache path = some e) (h2 : ref ∈ e.references)
    (h3 : ref.lasthash ≠ env.md5 (env.fcRaw ref.path))
    (_h4 : env.fcIsNew path = false) :
    haveUpdatedReferences env cache path = true ∧
    getProcessedCSS env root requestPath cache path
      = ((computedEntry env root requestPath path).processed,
         fun q => if q = path then some (computedEntry env root requestPath path)
           else cache q,
         1) := by
  have hupd : haveUpdatedReferences env cache path = true := by
    unfold haveUpdatedReferences
    rw [h1]
    rw [List.any_eq_true]
    exact ⟨ref, h2, by simp [bne_iff_ne, h3]⟩
  refine ⟨hupd, ?_⟩
  simp [getProcessedCSS, hupd, recomputeCSS, computedEntry]

/-- C3 witness. -/
theorem getProcessedCSS_stale_reference_recomputes_witness :
    haveUpdatedReferences envW cacheStale "/d/s.css" = true ∧
    getProcessedCSS envW root0 "/s.css" cacheStale "/d/s.css"
      = ((computedEntry envW root0 "/s.css" "/d/s.css").processed,
         fun q => if q = "/d/s.css" then some (computedEntry envW root0 "/s.css" "/d/s.css")
           else cacheStale q,
         1) :=
  getProcessedCSS_stale_reference_recomputes envW root0 "/s.css" cacheStale "/d/s.css"
    entryStale ⟨"/d/r.png", "stale"⟩ (by decide) (by decide) (by decide) rfl

/-- C4: with no cache entry for the path, the staleness check returns
`False` without performing a single file-cache query for any reference,
and the cache miss goes through the single compute branch of
`_getProcessedCSS` (the transform runs exactly once). -/
theorem haveUpdatedReferences_no_entry (env : Env) (root : Res)
    (requestPath : String) (cache : CSSCache) (path : String)
    (h : cache path = none) :
    haveUpdatedReferences env cache path = false ∧
    haveUpdatedReferencesQueries env cache path = [] ∧
    (getProcessedCSS env root requestPath cache path).2.2 = 1 := by
  have hupd : haveUpdatedReferences env cache path = false := by
    unfold haveUpdatedReferences
    rw [h]
  have hq : haveUpdatedReferencesQueries env cache path = [] := by
    unfold haveUpdatedReferencesQueries
    rw [h]
  refine ⟨hupd, hq, ?_⟩
  cases hn : env.fcIsNew path with
  | false => simp [getProcessedCSS, hn, hupd, h, recomputeCSS]
  | true => simp [getProcessedCSS, hn, recomputeCSS]

/-- C4 witness. -/
theorem haveUpdatedReferences_no_entry_witness :
    haveUpdatedReferences env0 cache0 "/d/other.css" = false ∧
    haveUpdatedReferencesQueries env0 cache0 "/d/other.css" = [] ∧
    (getProcessedCSS env0 root0 "/other.css" cache0 "/d/other.css").2.2 = 1 :=
  haveUpdatedReferences_no_entry env0 root0 "/other.css" cache0 "/d/other.css" rfl

/-- C7: with `hello` registered as a leaf `BetterResource` child of the
root, resolving the request for `/hello` (postpath `["hello"]`, no trailing
slash) yields a 301 `RedirectingResource` to `/hello/`, and resolving
`/hello/extra` (extra postpath past the leaf) yields the 404
`HelpfulNoResource`. -/
theorem leaf_redirect_and_extra_crud_404 (cs : List (String × Res)) :
    getChildForRequest (Res.better false [("hello", Res.better true cs)])
        ⟨[], ["hello"], "/hello"⟩ = Res.redirecting 301 "/hello/" ∧
    getChildForRequest (Res.better false [("hello", Res.better true cs)])
        ⟨[], ["hello", "extra"], "/hello/extra"⟩ = Res.helpfulNoResource := by
  constructor
  · simp [getChildForRequest, getChildForRequestAux, getChildWithDefault,
      betterGetChildWithDefault, lookupChild, Res.isLeafB, Res.isBetter,
      Res.hasEmptyChild, Res.childrenOf]
  · simp [getChildForRequest, getChildForRequestAux, getChildWithDefault,
      betterGetChildWithDefault, lookupChild, Res.isLeafB, Res.isBetter,
      Res.hasEmptyChild, Res.childrenOf]

/-- The site tree for the relative-href resolution scenario: static files
mounted at `/a/x.png`, `/a/b/foo.png` and `/a/b/style.css`, with their
disk paths as tags. -/
def siteA : Res :=
  Res.better false [("a", Res.better false [
      ("x.png", Res.plain false [] "/disk/a/x.png"),
      ("b", Res.better false [
          ("foo.png", Res.plain false [] "/disk/a/b/foo.png"),
          ("style.css", Res.plain false [] "/disk/a/b/style.css")])])]

/-- C8: a relative href inside a CSS file at `/a/b/style.css` resolves by
RFC 3986 relative-reference resolution against the requesting path:
`foo.png` joins to `/a/b/foo.png` and `../x.png` joins to `/a/x.png`; and
`getResourceForHref` returns exactly the resource the site tree serves at
the joined path. -/
theorem relative_href_resolution :
    urljoin "/a/b/style.css" "foo.png" = "/a/b/foo.png" ∧
    urljoin "/a/b/style.css" "../x.png" = "/a/x.png" ∧
    getResourceForHref siteA "/a/b/style.css" "foo.png"
      = Res.plain false [] "/disk/a/b/foo.png" ∧
    getResourceForHref siteA "/a/b/style.css" "foo.png"
      = getResourceForPath siteA "/a/b/foo.png" ∧
    getResourceForHref siteA "/a/b/style.css" "../x.png"
      = Res.plain false [] "/disk/a/x.png" ∧
    getResourceForHref siteA "/a/b/style.css" "../x.png"
      = getResourceForPath siteA "/a/x.png" :=
  ⟨by decide, by decide, rfl, rfl, rfl, rfl⟩

set_option maxRecDepth 100000 in
/-- C5 counterexample: in `url(http://a/url(x))url(x)` the first href,
`http://a/url(x`, is absolute, yet it does not appear unchanged in the
output of `fixUrls`: rewriting the relative href `x` replaces the FIRST
occurrence of `url(x)` in the content (`content.replace(..., 1)`), which
lies inside the absolute `url(...)`, so the absolute occurrence comes out
as `url(http://a/url(x?cb=not-found))`. -/
theorem absolute_url_clobbered_by_other_replacement :
    ("http://a/url(x" ∈ getUrlsHack "url(http://a/url(x))url(x)") ∧
    strStartsWith "http://" "http://a/url(x" = true ∧
    containsSubstr (fixUrls env0 root0 "/s.css" "url(http://a/url(x))url(x)").1
      "url(http://a/url(x)" = false :=
  ⟨by decide, by decide, by decide⟩

/-- C5 as amended: an absolute `http://`/`https://` href is skipped by the
loop — it triggers no replacement of its own and contributes no reference
entry — so whenever every `url(...)` href of the input is absolute,
`fixUrls` returns the content completely unchanged with an empty reference
list.  (As the counterexample shows, the text of an absolute `url(...)`
can still be altered by the replace-first rewrite of a different, relative
href whose `url(...)` text first occurs inside it.) -/
theorem fixUrls_all_absolute_untouched (env : Env) (root : Res)
    (requestPath content : String)
    (h : ∀ u ∈ getUrlsHack content,
      (strStartsWith "http://" u || strStartsWith "https://" u) = true) :
    fixUrls env root requestPath content = (content, []) := by
  unfold fixUrls fixUrlsFold
  rw [foldl_fixUrlsStep_absolute env root requestPath (getUrlsHack content)
    (content, [], []) h]

/-- C5 witness. -/
theorem fixUrls_all_absolute_untouched_witness :
    fixUrls env0 root0 "/s.css"
        "td \x7b background: url(https://cdn.example/x.png) \x7d"
      = ("td \x7b background: url(https://cdn.example/x.png) \x7d", []) :=
  fixUrls_all_absolute_untouched env0 root0 "/s.css"
    "td \x7b background: url(https://cdn.example/x.png) \x7d" (by decide)

set_option maxRecDepth 100000 in
/-- C6 counterexample: in `url(http://a/url(m))url(m)` the href `m` has no
locatable resource (`breaker = None`), but its `url(m)` occurrence is NOT
rewritten with the `not-found` placeholder: the replace-first rewrite hits
the earlier text inside the absolute `url(...)`, and the raw, unrewritten
`url(m)` survives in the returned CSS. -/
theorem missing_href_occurrence_left_unrewritten :
    ("m" ∈ getUrlsHack "url(http://a/url(m))url(m)") ∧
    (strStartsWith "http://" "m" || strStartsWith "https://" "m") = false ∧
    getBreakerForResource env0 (getResourceForHref root0 "/s.css" "m") = none ∧
    containsSubstr (fixUrls env0 root0 "/s.css" "url(http://a/url(m))url(m)").1
      "url(m)" = true :=
  ⟨by decide, by decide, by decide, by decide⟩

/-- C6 as amended: for a CSS input whose scan yields a single href, which
is relative and whose resource cannot be located or hashed
(`breaker = None`), `fixUrls` returns normally: the content with the first
occurrence of that `url(...)` text replaced by the href plus
`?cb=not-found` (so, the matched occurrence itself, there being no earlier
occurrence to absorb the replacement), with the visible warning banner —
naming the requesting path and the missing href — appended, and with no
reference entry recorded.  (With several hrefs, the replace-first rewrite
can instead hit an earlier occurrence of the same text, as the
counterexample shows.) -/
theorem fixUrls_missing_breaker_banner (env : Env) (root : Res)
    (requestPath content href : String)
    (h1 : getUrlsHack content = [href])
    (h2 : (strStartsWith "http://" href || strStartsWith "https://" href) = false)
    (h3 : getBreakerForResource env (getResourceForHref root requestPath href) = none) :
    fixUrls env root requestPath content
      = (replaceFirstStr ("url(" ++ href ++ ")")
           ("url(" ++ makeLinkWithBreaker href none ++ ")") content
         ++ warningBanner requestPath [href], []) ∧
    containsSubstr (fixUrls env root requestPath content).1
      (warningBanner requestPath [href]) = true := by
  have hmain : fixUrls env root requestPath content
      = (replaceFirstStr ("url(" ++ href ++ ")")
           ("url(" ++ makeLinkWithBreaker href none ++ ")") content
         ++ warningBanner requestPath [href], []) := by
    unfold fixUrls fixUrlsFold
    rw [h1]
    simp [List.foldl_cons, List.foldl_nil, fixUrlsStep, h2, h3]
  refine ⟨hmain, ?_⟩
  rw [hmain]
  exact containsSubstr_append _ _

/-- C6 witness: an unresolvable `url(missing.png)` yields the
placeholder-tokened link plus the visible warning banner, not an
exception. -/
theorem fixUrls_missing_breaker_banner_witness :
    fixUrls env0 root0 "/s.css" "url(missing.png)"
      = (replaceFirstStr "url(missing.png)"
           ("url(" ++ makeLinkWithBreaker "missing.png" none ++ ")") "url(missing.png)"
         ++ warningBanner "/s.css" ["missing.png"], []) ∧
    containsSubstr (fixUrls env0 root0 "/s.css" "url(missing.png)").1
      (warningBanner "/s.css" ["missing.png"]) = true :=
  fixUrls_missing_breaker_banner env0 root0 "/s.css" "url(missing.png)" "missing.png"
    (by decide) (by decide) (by decide)

set_option maxRecDepth 100000 in
/-- C9 counterexample: `url(missing.png)` holds a non-absolute target, but
because its breaker cannot be computed the recomputed reference list is
empty — the non-absolute target contributes NO `(path, hash)` pair, so the
references do not reflect every non-absolute `url(...)` target. -/
theorem missing_reference_not_recorded :
    ("missing.png" ∈ getUrlsHack "url(missing.png)") ∧
    (strStartsWith "http://" "missing.png"
      || strStartsWith "https://" "missing.png") = false ∧
    (fixUrls env0 root0 "/s.css" "url(missing.png)").2 = [] :=
  ⟨by decide, by decide, by decide⟩

/-- C9 as amended: after every (re)computation the reference list is
exactly, in order, the entries contributed by the scanned `url(...)`
hrefs, where an absolute href contributes nothing, a relative href with a
computable breaker contributes the pair (resolved resource path, breaker),
and a relative href whose breaker is missing contributes nothing; the
list holds no other entries.  This holds for `fixUrls` output, for the
`_process` transform built on it, and for the reference list stored in a
recomputed `_CSSCacheEntry`. -/
theorem fixUrls_references_characterization (env : Env) (root : Res)
    (requestPath content path : String) :
    (fixUrls env root requestPath content).2
      = (getUrlsHack content).filterMap (refOf env root requestPath) ∧
    (process env root requestPath content).2
      = (getUrlsHack content).filterMap (refOf env root requestPath) ∧
    (computedEntry env root requestPath path).references
      = (getUrlsHack (env.fcRaw path)).filterMap (refOf env root requestPath) := by
  have hfix : ∀ c : String, (fixUrls env root requestPath c).2
      = (getUrlsHack c).filterMap (refOf env root requestPath) := by
    intro c
    show (fixUrlsFold env root requestPath c).2.1 = _
    unfold fixUrlsFold
    rw [foldl_fixUrlsStep_refs env root requestPath (getUrlsHack c) (c, [], [])]
    simp
  refine ⟨hfix content, ?_, ?_⟩
  · unfold process
    simp [hfix content]
  · unfold computedEntry process
    simp [hfix (env.fcRaw path)]

/-- C10 counterexample: for `values = ["a\rb", <non-str>]`, the claim
demands a `TypeError` (an item is not a `str`), but the code checks the
items in order with the `str` check per item, so the earlier CR-containing
`str` raises `ValueError`. -/
theorem mixed_invalid_values_raise_valueError :
    (setRawHeadersSafely [] "x"
        (PyVal.list [PyVal.str "a\rb", PyVal.other "int"])).2
      = some PyErr.valueError ∧
    some PyErr.valueError ≠ some PyErr.typeError ∧
    ([PyVal.str "a\rb", PyVal.other "int"].any (fun v => !isPyStr v)) = true :=
  ⟨by decide, by decide, by decide⟩

/-- C10 as amended: `setRawHeadersSafely` raises `TypeError` when `values`
is not a list; otherwise it validates the items left to right — each item
is first checked to be a `str` (`TypeError`), then checked to be free of
CR and LF (`ValueError`) — and the first failing item's exception is
raised with the headers left unchanged (all values are validated before
any mutation); when every item passes, the header is set to exactly the
given values. -/
theorem setRawHeadersSafely_spec (hdrs : Headers) (name : String) :
    (∀ tag, setRawHeadersSafely hdrs name (PyVal.other tag)
      = (hdrs, some PyErr.typeError)) ∧
    (∀ s, setRawHeadersSafely hdrs name (PyVal.str s)
      = (hdrs, some PyErr.typeError)) ∧
    (∀ s, checkHeaderValue (PyVal.str s)
      = (if isValidHeaderValue s then none else some PyErr.valueError)) ∧
    (∀ v, isPyStr v = false → checkHeaderValue v = some PyErr.typeError) ∧
    (∀ pre bad rest e, (∀ v ∈ pre, checkHeaderValue v = none) →
      checkHeaderValue bad = some e →
      setRawHeadersSafely hdrs name (PyVal.list (pre ++ bad :: rest))
        = (hdrs, some e)) ∧
    (∀ items, firstCheckError items = none →
      setRawHeadersSafely hdrs name (PyVal.list items)
        = (headersSet hdrs name (strValuesOf items), none)) := by
  refine ⟨fun tag => rfl, fun s => rfl, fun s => rfl, ?_, ?_, ?_⟩
  · intro v hv
    cases v with
    | str s => simp [isPyStr] at hv
    | list items => rfl
    | other tag => rfl
  · intro pre bad rest e hpre hbad
    simp only [setRawHeadersSafely]
    rw [firstCheckError_append pre bad rest e hpre hbad]
  · intro items hok
    simp only [setRawHeadersSafely]
    rw [hok]

/-- C10 witness: a valid list of strings is set verbatim; a CR-bearing
`str` before a non-`str` raises the `ValueError` of the first failing
item, leaving the headers unchanged. -/
theorem setRawHeadersSafely_spec_witness :
    setRawHeadersSafely [("k", ["old"])] "k" (PyVal.list [PyVal.str "ok"])
      = ([("k", ["ok"])], none) ∧
    setRawHeadersSafely [("k", ["old"])] "k"
        (PyVal.list [PyVal.str "fine", PyVal.str "a\rb", PyVal.other "int"])
      = ([("k", ["old"])], some PyErr.valueError) := by
  constructor
  · have h := (setRawHeadersSafely_spec [("k", ["old"])] "k").2.2.2.2.2
      [PyVal.str "ok"] (by decide)
    rw [h]
    decide
  · have h := (setRawHeadersSafely_spec [("k", ["old"])] "k").2.2.2.2.1
      [PyVal.str "fine"] (PyVal.str "a\rb") [PyVal.other "int"] PyErr.valueError
      (by decide) (by decide)
    exact h

end Webmagic
